import Mathlib

/-!
Shallow embedding of the TruPharma drug-RAG pipeline
(openfda_rag.py, rag/engine.py, rag/drug_profile.py,
ingestion/rxnorm.py, ingestion/faers.py) and proofs about it.

Modelling conventions:
- `str.split()` is modelled by `pysplit` (split on whitespace, drop empties);
- float arithmetic on the small exact decimals appearing in the code
  (0.5, 0.3, 0.08, 0.04, percentages) is modelled exactly over `ℚ`;
  comparisons of an integer against `m * 0.3` are modelled by the
  equivalent exact integer comparison (see `int_lt_three_tenths_iff`);
- Python `round(x, n)` (round-half-to-even) is modelled by `roundHalfEven`;
- Python `sorted` / `list.sort` (stable) is modelled by `List.insertionSort`,
  which is also stable;
- network calls are modelled as oracle parameters (records of functions
  returning the same shapes the Python helpers return);
- unbounded loops/recursion are modelled with explicit fuel, `none` meaning
  the computation has not finished within the given fuel.
-/

namespace TruPharma

/-- Model of Python `str.split()` on a list of characters: maximal runs of
non-whitespace characters, empty runs discarded. `acc` holds the current
word reversed. -/
def pywordsAux : List Char → List Char → List (List Char)
  | [], acc => if acc = [] then [] else [acc.reverse]
  | c :: rest, acc =>
    if c.isWhitespace then
      if acc = [] then pywordsAux rest [] else acc.reverse :: pywordsAux rest []
    else pywordsAux rest (c :: acc)

/-- Python `text.split()` : whitespace-delimited words of a string. -/
def pysplit (s : String) : List String :=
  (pywordsAux s.toList []).map (fun cs => String.mk cs)

/-- Python `s.strip()` : remove leading and trailing whitespace. -/
def pystrip (s : String) : String :=
  String.mk (((s.toList.dropWhile Char.isWhitespace).reverse.dropWhile
    Char.isWhitespace).reverse)

/-- Python `needle in hay` substring containment on character lists. -/
def containsSub (needle : List Char) : List Char → Bool
  | [] => needle.isEmpty
  | c :: rest => needle.isPrefixOf (c :: rest) || containsSub needle rest

/-- Python `round` rounds half to even; `roundHalfEven q` is that rounding of
`q` to an integer. -/
def roundHalfEven (q : ℚ) : ℤ :=
  let f := ⌊q⌋
  let r := q - (f : ℚ)
  if r < 1 / 2 then f
  else if 1 / 2 < r then f + 1
  else if f % 2 = 0 then f else f + 1

/-- Python `round(x, 2)`. -/
def round2 (q : ℚ) : ℚ := (roundHalfEven (100 * q) : ℚ) / 100

/-- Python `round(x, 1)`. -/
def round1 (q : ℚ) : ℚ := (roundHalfEven (10 * q) : ℚ) / 10

/-! ### openfda_rag.fixed_size_chunk (src/src/openfda_rag.py lines 103-113)

    def fixed_size_chunk(text, words_per_chunk, overlap):
        words = text.split()
        chunks = []
        start = 0
        while start < len(words):
            end = min(len(words), start + words_per_chunk)
            chunks.append(" ".join(words[start:end]))
            if end == len(words):
                break
            start = max(0, end - overlap)
        return chunks

The loop carries no progress guarantee, so it is embedded with explicit
fuel.  The loop body only moves the cursor, so we record the visited
`(start, end)` index windows and render the word slices afterwards;
truncated `Nat` subtraction `e - o` coincides with Python's
`max(0, end - overlap)`. -/
def windowsAux (len w o : Nat) : Nat → Nat → Option (List (Nat × Nat))
  | 0, _ => none
  | fuel + 1, start =>
    if start < len then
      let e := min len (start + w)
      if e = len then some [(start, e)]
      else (windowsAux len w o fuel (e - o)).map (fun ws => (start, e) :: ws)
    else some []

/-- `fixed_size_chunk text words_per_chunk overlap`, run with fuel
`len + 1`, which is enough for every terminating run of the Python loop
whose cursor advances at each step. -/
def fixed_size_chunk (text : String) (words_per_chunk overlap : Nat) : Option (List String) :=
  let words := pysplit text
  (windowsAux words.length words_per_chunk overlap (words.length + 1) 0).map
    (fun ws => ws.map (fun p => String.intercalate " " ((words.drop p.1).take (p.2 - p.1))))

/-! ### rag/engine.py : retrieval helpers -/

/-- openfda_rag.TextChunk: `(chunk_id, doc_id, field, text)`. -/
structure TextChunk where
  chunk_id : String
  doc_id : String
  field : String
  text : String
deriving DecidableEq

/-- engine.py line 129: `cid = lambda it: getattr(it, "chunk_id", str(it))`;
for the `TextChunk` items the engine passes, this is the chunk id. -/
def cid (it : TextChunk) : String := it.chunk_id

/-- engine.py lines 130-131: the rank dict
`{cid(it): r for r, (_, it) in enumerate(res, 1)}`, as an association list
built so that a later duplicate key overwrites an earlier one (`rankMap`
reverses, so `List.lookup` finds the last binding first). -/
def rankEntries : Nat → List (ℚ × TextChunk) → List (String × Nat)
  | _, [] => []
  | base, x :: xs => (cid x.2, base + 1) :: rankEntries (base + 1) xs

def rankMap (l : List (ℚ × TextChunk)) : List (String × Nat) :=
  (rankEntries 0 l).reverse

/-- engine.py lines 132-134: `bucket.setdefault(cid(it), it)` over the
concatenated result lists — deduplicate by key keeping the first
occurrence, preserving insertion order. -/
def bucketAux : List String → List TextChunk → List TextChunk
  | _, [] => []
  | seen, x :: xs =>
    if cid x ∈ seen then bucketAux seen xs
    else x :: bucketAux (cid x :: seen) xs

/-- engine.py lines 136-139: the fused reciprocal-rank score of one item. -/
def fuseScore (dr sr : List (String × Nat)) (dlen slen : Nat) (alpha : ℚ)
    (obj : TextChunk) : ℚ :=
  let d : ℚ := ((dr.lookup (cid obj)).getD (dlen + 1) : Nat)
  let s : ℚ := ((sr.lookup (cid obj)).getD (slen + 1) : Nat)
  alpha / d + (1 - alpha) / s

/-- Descending-by-score order used by `fused.sort(key=..., reverse=True)`.
A stable sort with this relation keeps the original order of ties, exactly
like Python's stable descending sort. -/
def scoreGE (a b : ℚ × TextChunk) : Prop := b.1 ≤ a.1

instance : DecidableRel scoreGE := fun a b => inferInstanceAs (Decidable (b.1 ≤ a.1))

instance : IsTotal (ℚ × TextChunk) scoreGE := ⟨fun a b => le_total b.1 a.1⟩

instance : IsTrans (ℚ × TextChunk) scoreGE := ⟨fun _ _ _ h1 h2 => le_trans h2 h1⟩

/-- engine.py lines 127-141: `_fuse(dense_res, sparse_res, alpha, k)` —
reciprocal-rank fusion of the two scored result lists. -/
def fuse (dense_res sparse_res : List (ℚ × TextChunk)) (alpha : ℚ) (k : Nat) :
    List (ℚ × TextChunk) :=
  let dr := rankMap dense_res
  let sr := rankMap sparse_res
  let b := bucketAux [] ((dense_res ++ sparse_res).map (fun p => p.2))
  let fused := b.map
    (fun obj => (fuseScore dr sr dense_res.length sparse_res.length alpha obj, obj))
  (List.insertionSort scoreGE fused).take k

/-! ### rag/engine.py : dense retrieval -/

/-- Inner product of two vectors (faiss `IndexFlatIP` similarity). -/
def innerProd (u v : List ℚ) : ℚ := ((u.zip v).map (fun p => p.1 * p.2)).sum

/-- Descending order on (score, index) pairs for nearest-neighbor search. -/
def ipGE (a b : ℚ × Nat) : Prop := b.1 ≤ a.1

instance : DecidableRel ipGE := fun a b => inferInstanceAs (Decidable (b.1 ≤ a.1))

instance : IsTotal (ℚ × Nat) ipGE := ⟨fun a b => le_total b.1 a.1⟩

instance : IsTrans (ℚ × Nat) ipGE := ⟨fun _ _ _ h1 h2 => le_trans h2 h1⟩

/-- faiss `index.search(qv, n)`: the `n` best (inner-product score, index)
pairs over the stored vectors. -/
def ipSearch (vectors : List (List ℚ)) (qv : List ℚ) (n : Nat) : List (ℚ × Nat) :=
  (List.insertionSort ipGE
    ((vectors.enum).map (fun p => (innerProd qv p.2, p.1)))).take n

/-- engine.py lines 102-115: `_dense(query, index, corpus, ..., k)`.
The query embedding is an `Option` ( `none` = `_embed_query` returned
`None`, i.e. the embedder is absent), the index an `Option` of its stored
vectors (`none` = index absent, with `ntotal` its length). -/
def dense (qv : Option (List ℚ)) (index : Option (List (List ℚ)))
    (corpus : List TextChunk) (k : Nat) : List (ℚ × TextChunk) :=
  match index with
  | none => []
  | some vecs =>
    if corpus = [] then []
    else
      match qv with
      | none => []
      | some q =>
        let n := min k vecs.length
        (ipSearch vecs q n).map (fun p => (p.1, corpus.getD p.2 ⟨"", "", "", ""⟩))

/-- engine.py line 358: `pool = max(20, top_k * 3)` — the over-fetch pool
size `run_rag_query` passes to `_dense` / `_sparse` / `_fuse`. -/
def densePool (top_k : Nat) : Nat := max 20 (top_k * 3)

/-- engine.py line 360: the dense branch of `run_rag_query`,
`[it for _, it in _dense(query, index, corpus, e_type, e_model, vec, pool)]`. -/
def dense_retrieve (qv : Option (List ℚ)) (index : Option (List (List ℚ)))
    (corpus : List TextChunk) (top_k : Nat) : List TextChunk :=
  (dense qv index corpus (densePool top_k)).map (fun p => p.2)

/-! ### rag/engine.py : confidence scoring -/

/-- One evidence-pack record (engine.py lines 378-386). -/
structure EvidenceItem where
  cite : String
  content : String
  doc_id : String
  field : String
deriving DecidableEq

/-- The fixed sentinel sentence of the grounding prompt and the
extractive fallback. -/
def sentinel : String := "Not enough evidence in the retrieved context."

/-- Number of matches of the regex `\[.*?\]` (engine.py line 246):
non-overlapping, leftmost, non-greedy bracket pairs; `.` does not match a
newline.  One left-to-right pass: an unclosed `[` is pending (`opn`), a
`]` closes the pending `[` and counts one match, a newline discards the
pending `[` (no `]` can close it or any earlier `[` before this point). -/
def countCiteAux : Bool → List Char → Nat
  | _, [] => 0
  | opn, c :: rest =>
    if c = '[' then countCiteAux true rest
    else if c = ']' then
      (if opn then 1 + countCiteAux false rest else countCiteAux false rest)
    else if c = '\n' then countCiteAux false rest
    else countCiteAux opn rest

def countCite (s : List Char) : Nat := countCiteAux false s

/-- engine.py lines 241-247: `_confidence(evidence, answer)`. -/
def confidence (evidence : List EvidenceItem) (answer : String) : ℚ :=
  if containsSub "Not enough evidence".toList answer.toList then 0
  else
    round2 (min 1 (3 / 10 + (8 / 100) * (evidence.length : ℚ)
      + (4 / 100) * (countCite answer.toList : ℚ)))

/-! ### ingestion/rxnorm.py : cascading name resolution

The RxNorm REST helpers (`get_rxcui_by_name`, `get_drug_info`,
`get_approximate_match`, `get_spelling_suggestions`, `get_related_brands`,
`get_generic_from_brand`, `_get_all_related_rxcuis`) are network calls that
return empty structures on failure; they are modelled as an oracle record
returning the same shapes. -/

/-- Result shape of `get_drug_info`:
`{"brands": [...], "generics": [...], "rxcuis": [...]}`. -/
structure DrugInfo where
  brands : List String
  generics : List String
  rxcuis : List String
deriving DecidableEq

/-- One entry of `get_approximate_match`: `{rxcui, name, score}`. -/
structure ApproxCandidate where
  rxcui : String
  name : String
  score : String
deriving DecidableEq

/-- Oracle for the RxNorm REST helpers. -/
structure RxApi where
  rxcuiByName : String → Option String
  drugInfo : String → DrugInfo
  approximateMatch : String → List ApproxCandidate
  spellingSuggestions : String → List String
  relatedBrands : String → List String
  genericFromBrand : String → Option String
  allRelatedRxcuis : String → List String

/-- The resolution dict of `resolve_drug_name` (rxnorm.py lines 195-204). -/
structure ResolveResult where
  input : String
  resolved_name : String
  rxcui : Option String
  brand_names : List String
  generic_name : Option String
  all_rxcuis : List String
  spelling_suggestion : Option String
  confidence : String
deriving DecidableEq

/-- Python truthiness of an optional string (`None` and `""` are falsy). -/
def optTruthy : Option String → Bool
  | none => false
  | some s => !(s == "")

/-- Python `list(dict.fromkeys(l))`: drop duplicates keeping the first
occurrence of each value, preserving order. -/
def pyDedup : List String → List String → List String
  | _, [] => []
  | seen, x :: xs =>
    if x ∈ seen then pyDedup seen xs else x :: pyDedup (x :: seen) xs

/-- The dict `resolve_drug_name` starts from (rxnorm.py lines 195-204). -/
def defaultResult (name : String) : ResolveResult :=
  { input := name, resolved_name := name, rxcui := none, brand_names := [],
    generic_name := none, all_rxcuis := [], spelling_suggestion := none,
    confidence := "none" }

/-- rxnorm.py lines 263-286: `_enrich(result, rxcui, original_input)` —
fill in generic name, brand names and related RxCUIs from a known RxCUI. -/
def enrich (api : RxApi) (result : ResolveResult) (rxcui original_input : String) :
    ResolveResult :=
  let r1 :=
    if optTruthy result.generic_name then result
    else
      match api.genericFromBrand rxcui with
      | none => result
      | some g =>
        if g = "" then result
        else { result with generic_name := some g, resolved_name := g }
  let r2 :=
    if r1.brand_names = [] then
      let viaParent :=
        if optTruthy r1.generic_name then
          match api.rxcuiByName (r1.generic_name.getD "") with
          | none => []
          | some p => if p = "" then [] else api.relatedBrands p
        else []
      let bs := if viaParent = [] then api.relatedBrands rxcui else viaParent
      { r1 with brand_names := bs }
    else r1
  let r3 :=
    if r2.all_rxcuis = [] then { r2 with all_rxcuis := api.allRelatedRxcuis rxcui }
    else r2
  let r4 :=
    if rxcui ∈ r3.all_rxcuis then r3
    else { r3 with all_rxcuis := rxcui :: r3.all_rxcuis }
  if r4.resolved_name = "" ∨ r4.resolved_name = original_input then
    if optTruthy r4.generic_name then
      { r4 with resolved_name := r4.generic_name.getD "" }
    else r4
  else r4

/-- rxnorm.py lines 179-260: `resolve_drug_name(name)`.  The recursion at
line 251 (`sub = resolve_drug_name(corrected)`) is depth-unbounded, so the
embedding carries fuel; `none` means the recursion has not finished within
the given fuel. -/
def resolveAux (api : RxApi) : Nat → String → Option ResolveResult
  | 0, _ => none
  | fuel + 1, name =>
    let result := defaultResult name
    let clean := pystrip name
    if clean = "" then some result
    else
      let ex := api.rxcuiByName clean
      if optTruthy ex then
        some (enrich api { result with rxcui := ex, confidence := "exact" }
          (ex.getD "") clean)
      else
        let info := api.drugInfo clean
        match info.rxcuis with
        | r :: _ =>
          let res1 := { result with rxcui := some r, confidence := "exact" }
          let res2 :=
            match info.generics with
            | [] => res1
            | g :: _ => { res1 with generic_name := some g, resolved_name := g }
          let res3 :=
            if info.brands = [] then res2
            else { res2 with brand_names := pyDedup [] info.brands }
          let res4 := { res3 with all_rxcuis := pyDedup [] info.rxcuis }
          some (enrich api res4 r clean)
        | [] =>
          match api.approximateMatch clean with
          | best :: _ =>
            let resA :=
              { result with
                rxcui := some best.rxcui
                resolved_name := best.name
                confidence := "approximate" }
            some (enrich api resA best.rxcui clean)
          | [] =>
            match api.spellingSuggestions clean with
            | corrected :: _ =>
              let res5 :=
                { result with
                  spelling_suggestion := some corrected
                  confidence := "spelling_corrected" }
              match resolveAux api fuel corrected with
              | none => none
              | some sub =>
                if optTruthy sub.rxcui then
                  some { res5 with
                         rxcui := sub.rxcui
                         resolved_name := sub.resolved_name
                         generic_name := sub.generic_name
                         brand_names := sub.brand_names
                         all_rxcuis := sub.all_rxcuis }
                else some res5
            | [] => some result

/-! ### ingestion/faers.py : adverse-event aggregation -/

/-- One `{"term": ..., "count": ...}` reaction entry. -/
structure Reaction where
  term : String
  count : Int
deriving DecidableEq

/-- One sample narrative record built by `_fetch_sample_reports`. -/
structure Narrative where
  age_group : String
  sex : String
  drugs : List String
  reactions : List String
  outcome : String
  receive_date : String
deriving DecidableEq

/-- The summary dict of `fetch_faers_summary` (faers.py lines 228-237 /
264-273); percentage maps are association lists of label to percent. -/
structure FaersSummary where
  drug_name : String
  total_reports : Int
  top_reactions : List Reaction
  seriousness : List (String × Int)
  reporter_types : List (String × ℚ)
  patient_sex : List (String × ℚ)
  patient_age_groups : List (String × ℚ)
  sample_narratives : List Narrative
deriving DecidableEq

/-- The joined `results` mapping of the seven parallel sub-queries
(faers.py lines 240-258): each value is `none` exactly when that task
raised and was replaced by `None`. -/
structure FaersSubResults where
  total : Option Int
  reactions : Option (List Reaction)
  seriousness : Option (List (String × Int))
  reporters : Option (List (String × ℚ))
  sex : Option (List (String × ℚ))
  age : Option (List (String × ℚ))
  samples : Option (List Narrative)
deriving DecidableEq

/-- The canonical empty summary (faers.py lines 228-237). -/
def emptyFaers (generic_name : String) : FaersSummary :=
  { drug_name := generic_name, total_reports := 0, top_reactions := [],
    seriousness := [], reporter_types := [], patient_sex := [],
    patient_age_groups := [], sample_narratives := [] }

/-- faers.py lines 260-273: the merge step of `fetch_faers_summary`,
given the joined sub-query results.  `results.get("total", 0) or 0`
maps both `None` and `0` to `0`; `x or default` on the remaining
values maps `None` (and the falsy empty value) to the empty value. -/
def fetch_faers_summary (generic_name : String) (res : FaersSubResults) :
    FaersSummary :=
  let total := res.total.getD 0
  if total = 0 then emptyFaers generic_name
  else
    { drug_name := generic_name, total_reports := total,
      top_reactions := res.reactions.getD [],
      seriousness := res.seriousness.getD [],
      reporter_types := res.reporters.getD [],
      patient_sex := res.sex.getD [],
      patient_age_groups := res.age.getD [],
      sample_narratives := res.samples.getD [] }

/-! ### rag/drug_profile.py : disparity analysis -/

/-- drug_profile.py lines 124-125:
`_normalize_term(term) = re.sub(r"[^a-z ]", "", term.lower()).strip()`.
ASCII lowering; after the character filter only letters and spaces
remain, so `strip()` removes leading/trailing spaces. -/
def normalize_term (t : String) : String :=
  let kept := (t.toList.map Char.toLower).filter
    (fun c => c = ' ' || ('a' ≤ c && c ≤ 'z'))
  String.mk (((kept.dropWhile (fun c => c = ' ')).reverse.dropWhile
    (fun c => c = ' ')).reverse)

/-- drug_profile.py line 159: a reaction term is on the label when one of
its normalized words longer than 3 characters occurs as a substring of the
normalized label text. -/
def onLabel (label_lower : String) (term : String) : Bool :=
  ((pysplit (normalize_term term)).filter (fun w => 3 < w.length)).any
    (fun w => containsSub w.toList label_lower.toList)

/-- One entry of the disparity lists:
`{"term": ..., "faers_count": ..., "faers_pct": ...}`. -/
structure DisparityEntry where
  term : String
  faers_count : Int
  faers_pct : ℚ
deriving DecidableEq

/-- The dict returned by `compute_disparity`. -/
structure DisparityReport where
  reactions_in_faers_not_on_label : List DisparityEntry
  reactions_on_label_with_high_faers : List DisparityEntry
  reactions_on_label_with_low_faers : List DisparityEntry
  disparity_score : ℚ
deriving DecidableEq

/-- The entry built for a reaction (drug_profile.py lines 162-168). -/
def mkEntry (total : Int) (r : Reaction) : DisparityEntry :=
  { term := r.term, faers_count := r.count,
    faers_pct := round1 ((r.count : ℚ) / (total : ℚ) * 100) }

/-- drug_profile.py line 150: `sum(r.get("count", 0) for r in ...) or 1`. -/
def totalFaersOf (faers_top_reactions : List Reaction) : Int :=
  let s := (faers_top_reactions.map (fun r => r.count)).sum
  if s = 0 then 1 else s

/-- The "confirmed risks" list (`on_label_high_faers`, drug_profile.py
lines 152-164): reactions whose term matches the label, in order. -/
def disparityConfirmed (label_lower : String) (total : Int)
    (faers_top_reactions : List Reaction) : List DisparityEntry :=
  (faers_top_reactions.filter (fun r => onLabel label_lower r.term)).map
    (mkEntry total)

/-- The "emerging signals" list (`in_faers_not_label`, same loop). -/
def disparityEmerging (label_lower : String) (total : Int)
    (faers_top_reactions : List Reaction) : List DisparityEntry :=
  (faers_top_reactions.filter (fun r => !(onLabel label_lower r.term))).map
    (mkEntry total)

/-- drug_profile.py lines 173-180: the "potentially over-warned" list
(`on_label_low_faers`): empty if there are no confirmed risks, else the
confirmed risks with `faers_count < median_count * 0.3` where
`median_count = sorted(counts)[len(counts) // 2]`.  The comparison against
the float product `median_count * 0.3` is embedded as the exact integer
comparison `10 * count < 3 * median`
(`int_lt_three_tenths_iff` proves it equal to the rational comparison). -/
def disparityLow (confirmed : List DisparityEntry) : List DisparityEntry :=
  if confirmed = [] then []
  else
    confirmed.filter (fun e => decide (10 * e.faers_count <
      3 * (List.insertionSort (· ≤ ·)
        (confirmed.map (fun x => x.faers_count))).getD (confirmed.length / 2) 0))

/-- drug_profile.py lines 128-187: `compute_disparity(label, reactions)`. -/
def compute_disparity (label_adverse_reactions : String)
    (faers_top_reactions : List Reaction) : DisparityReport :=
  if label_adverse_reactions = "" ∨ faers_top_reactions = [] then
    { reactions_in_faers_not_on_label := [],
      reactions_on_label_with_high_faers := [],
      reactions_on_label_with_low_faers := [],
      disparity_score := 0 }
  else
    let label_lower := normalize_term label_adverse_reactions
    let total_faers := totalFaersOf faers_top_reactions
    let confirmed := disparityConfirmed label_lower total_faers faers_top_reactions
    let emerging := disparityEmerging label_lower total_faers faers_top_reactions
    let total_top :=
      if faers_top_reactions.length = 0 then 1 else faers_top_reactions.length
    let score := round2 ((emerging.length : ℚ) / (total_top : ℚ))
    { reactions_in_faers_not_on_label := emerging,
      reactions_on_label_with_high_faers := confirmed,
      reactions_on_label_with_low_faers := disparityLow confirmed,
      disparity_score := score }

/-- The element of the ascending-sorted count list at index `⌊n/2⌋` — the
value `sorted(counts)[len(counts) // 2]` the code uses (drug_profile.py
lines 175-177); for odd list lengths this is the median, for even lengths
the upper of the two middle elements. -/
def upperMedian (l : List Int) : Int :=
  (List.insertionSort (· ≤ ·) l).getD (l.length / 2) 0

/-- Modelled from the spec: the *median* in its standard statistical sense
(the spec's "compute the median report count among confirmed risks"): the
middle element of the sorted list for odd length, the mean of the two
middle elements for even length. -/
def specMedian (l : List Int) : ℚ :=
  let s := List.insertionSort (· ≤ ·) l
  if l.length % 2 = 1 then (s.getD (l.length / 2) 0 : ℚ)
  else ((s.getD (l.length / 2 - 1) 0 : ℚ) + (s.getD (l.length / 2) 0 : ℚ)) / 2

/-! ## Theorems -/

/-- C1: the claim says every iteration of `fixed_size_chunk` advances the
start cursor by at least one word even when overlap ≥ window size.  The
code disagrees: with window size 1 and overlap 1 on the three-word input
"one two three", the loop sets `start = max(0, end - overlap) = 0` forever,
so the fuelled embedding returns `none` for every fuel — the loop never
terminates. -/
theorem fixed_size_chunk_overlap_ge_window_diverges :
    (∀ fuel, windowsAux (pysplit "one two three").length 1 1 fuel 0 = none) ∧
      fixed_size_chunk "one two three" 1 1 = none := by
  have hlen : (pysplit "one two three").length = 3 := by decide
  refine ⟨?_, by decide⟩
  intro fuel
  rw [hlen]
  induction fuel with
  | zero => rfl
  | succ n ih => simp [windowsAux, ih]

/-- Progress-and-coverage invariant of the chunking loop when
window > overlap: with fuel exceeding the word count left of the cursor,
the loop finishes, the produced windows cover every word index at or past
the cursor, and every window spans at most `w` words. -/
theorem windowsAux_spec (len w o : Nat) (how : o < w) :
    ∀ fuel start, len - start < fuel →
      ∃ ws, windowsAux len w o fuel start = some ws ∧
        (∀ i, start ≤ i → i < len → ∃ p ∈ ws, p.1 ≤ i ∧ i < p.2) ∧
        (∀ p ∈ ws, p.2 - p.1 ≤ w) := by
  intro fuel
  induction fuel with
  | zero => intro start h; omega
  | succ n ih =>
    intro start h
    by_cases hs : start < len
    · by_cases he : min len (start + w) = len
      · refine ⟨[(start, min len (start + w))], by simp [windowsAux, hs, he], ?_, ?_⟩
        · intro i h1 h2
          exact ⟨(start, min len (start + w)), by simp, h1, by omega⟩
        · intro p hp
          rw [List.mem_singleton] at hp
          subst hp
          simp
          omega
      · have hlt : start + w < len := by omega
        have hmin : min len (start + w) = start + w := by omega
        obtain ⟨ws, hws, hcov, hsz⟩ := ih (start + w - o) (by omega)
        refine ⟨(start, start + w) :: ws, ?_, ?_, ?_⟩
        · simp only [windowsAux, if_pos hs, hmin, if_neg (by omega : ¬ start + w = len),
            hws, Option.map_some']
        · intro i h1 h2
          by_cases hi : i < start + w
          · exact ⟨(start, start + w), List.mem_cons_self _ _, h1, hi⟩
          · obtain ⟨p, hp, hp1, hp2⟩ := hcov i (by omega) h2
            exact ⟨p, List.mem_cons_of_mem _ hp, hp1, hp2⟩
        · intro p hp
          rcases List.mem_cons.mp hp with h' | h'
          · subst h'; simp
          · exact hsz p h'
    · refine ⟨[], by simp [windowsAux, hs], ?_, by simp⟩
      intro i h1 h2
      omega

/-- C2: for every input text and window > overlap ≥ 0, the word-window
chunker terminates (fuel `len + 1` suffices), the produced windows jointly
cover every word of the token sequence, every window spans at most
`words_per_chunk` words, and `fixed_size_chunk` returns exactly the
space-joined word slices of those windows. -/
theorem fixed_size_chunk_correct (text : String) (w o : Nat) (h : o < w) :
    ∃ ws,
      windowsAux (pysplit text).length w o ((pysplit text).length + 1) 0 = some ws ∧
      fixed_size_chunk text w o = some (ws.map (fun p =>
        String.intercalate " " (((pysplit text).drop p.1).take (p.2 - p.1)))) ∧
      (∀ i, i < (pysplit text).length → ∃ p ∈ ws, p.1 ≤ i ∧ i < p.2) ∧
      (∀ p ∈ ws, p.2 - p.1 ≤ w) := by
  obtain ⟨ws, hws, hcov, hsz⟩ :=
    windowsAux_spec (pysplit text).length w o h ((pysplit text).length + 1) 0 (by omega)
  exact ⟨ws, hws, by simp [fixed_size_chunk, hws],
    fun i hi => hcov i (Nat.zero_le i) hi, hsz⟩

/-- Witness for C2 at text "alpha beta gamma", window 2, overlap 1. -/
theorem fixed_size_chunk_correct_witness :
    1 < 2 ∧
    (∃ ws,
      windowsAux (pysplit "alpha beta gamma").length 2 1
        ((pysplit "alpha beta gamma").length + 1) 0 = some ws ∧
      fixed_size_chunk "alpha beta gamma" 2 1 = some (ws.map (fun p =>
        String.intercalate " "
          (((pysplit "alpha beta gamma").drop p.1).take (p.2 - p.1)))) ∧
      (∀ i, i < (pysplit "alpha beta gamma").length → ∃ p ∈ ws, p.1 ≤ i ∧ i < p.2) ∧
      (∀ p ∈ ws, p.2 - p.1 ≤ 2)) :=
  ⟨by decide, fixed_size_chunk_correct "alpha beta gamma" 2 1 (by decide)⟩

/-- C7: if the overall total-report count is zero, or the total-count query
failed (so its joined result defaults to 0), the adverse-event fetch
returns exactly the canonical empty summary, whatever the other six
sub-queries returned. -/
theorem faers_zero_total_returns_empty (g : String) (res : FaersSubResults)
    (h : res.total.getD 0 = 0) :
    fetch_faers_summary g res = emptyFaers g := by
  simp [fetch_faers_summary, h]

/-- A sub-query outcome with total 0 but non-empty partial data from the
other sub-queries. -/
def faersSubData : FaersSubResults :=
  { total := some 0,
    reactions := some [{ term := "NAUSEA", count := 42 }],
    seriousness := some [("serious", 7)],
    reporters := some [("physician", 55 / 10)],
    sex := some [("female", 60)],
    age := some [("adult", 80)],
    samples := some [{ age_group := "adult"
                       sex := "female"
                       drugs := ["IBUPROFEN"]
                       reactions := ["NAUSEA"]
                       outcome := "hospitalization"
                       receive_date := "20240101" }] }

/-- Witness for C7: zero total with non-empty partial sub-results still
yields the canonical empty summary. -/
theorem faers_zero_total_returns_empty_witness :
    faersSubData.total.getD 0 = 0 ∧
      faersSubData.reactions = some [{ term := "NAUSEA", count := 42 }] ∧
      fetch_faers_summary "ibuprofen" faersSubData = emptyFaers "ibuprofen" :=
  ⟨rfl, rfl, faers_zero_total_returns_empty "ibuprofen" faersSubData rfl⟩

/-- C5 (amended): when the cleaned input misses on all four strategies
(no exact RxCUI, no concept-group identifiers, no approximate candidates,
no spelling suggestions), resolution returns the starting dict: confidence
"none" and resolved_name equal to the ORIGINAL input string — which equals
the trimmed input only when the input carries no surrounding whitespace. -/
theorem resolve_all_strategies_fail (api : RxApi) (name : String) (fuel : Nat)
    (h1 : optTruthy (api.rxcuiByName (pystrip name)) = false)
    (h2 : (api.drugInfo (pystrip name)).rxcuis = [])
    (h3 : api.approximateMatch (pystrip name) = [])
    (h4 : api.spellingSuggestions (pystrip name) = []) :
    resolveAux api (fuel + 1) name = some (defaultResult name) ∧
      (defaultResult name).confidence = "none" ∧
      (defaultResult name).resolved_name = name := by
  refine ⟨?_, rfl, rfl⟩
  by_cases hc : pystrip name = ""
  · simp [resolveAux, hc]
  · simp [resolveAux, hc, h1, h2, h3, h4]

/-- An oracle on which every lookup fails. -/
def allEmptyApi : RxApi :=
  { rxcuiByName := fun _ => none,
    drugInfo := fun _ => { brands := [], generics := [], rxcuis := [] },
    approximateMatch := fun _ => [],
    spellingSuggestions := fun _ => [],
    relatedBrands := fun _ => [],
    genericFromBrand := fun _ => none,
    allRelatedRxcuis := fun _ => [] }

/-- Witness for C5 (amended), at the all-failing oracle and input " zzz ". -/
theorem resolve_all_strategies_fail_witness :
    optTruthy (allEmptyApi.rxcuiByName (pystrip " zzz ")) = false ∧
      (allEmptyApi.drugInfo (pystrip " zzz ")).rxcuis = [] ∧
      allEmptyApi.approximateMatch (pystrip " zzz ") = [] ∧
      allEmptyApi.spellingSuggestions (pystrip " zzz ") = [] ∧
      (resolveAux allEmptyApi 1 " zzz " = some (defaultResult " zzz ") ∧
        (defaultResult " zzz ").confidence = "none" ∧
        (defaultResult " zzz ").resolved_name = " zzz ") :=
  ⟨rfl, rfl, rfl, rfl, resolve_all_strategies_fail allEmptyApi " zzz " 0 rfl rfl rfl rfl⟩

/-- C5 counterexample: on the input " zzz " (surrounded by spaces) with
every strategy failing, `resolve_drug_name` yields resolved_name equal to
the original untrimmed input, not the trimmed input as the claim states. -/
theorem resolve_untrimmed_counterexample :
    (resolveAux allEmptyApi 1 " zzz ").map ResolveResult.resolved_name = some " zzz " ∧
      (resolveAux allEmptyApi 1 " zzz ").map ResolveResult.confidence = some "none" ∧
      pystrip " zzz " = "zzz" ∧
      (resolveAux allEmptyApi 1 " zzz ").map ResolveResult.resolved_name ≠
        some (pystrip " zzz ") := by
  exact ⟨by decide, by decide, by decide, by decide⟩

/-- An oracle whose spelling-suggestion service suggests "asprin" for
"aspirn" and "aspirn" for "asprin", with every other strategy failing —
the recursive call at rxnorm.py line 251 then never bottoms out. -/
def cycleApi : RxApi :=
  { rxcuiByName := fun _ => none,
    drugInfo := fun _ => { brands := [], generics := [], rxcuis := [] },
    approximateMatch := fun _ => [],
    spellingSuggestions := fun s =>
      if s = "aspirn" then ["asprin"] else if s = "asprin" then ["aspirn"] else [],
    relatedBrands := fun _ => [],
    genericFromBrand := fun _ => none,
    allRelatedRxcuis := fun _ => [] }

/-- The two cyclically-suggested inputs both exhaust any amount of fuel. -/
theorem resolve_cycle_aux : ∀ fuel,
    resolveAux cycleApi fuel "aspirn" = none ∧
      resolveAux cycleApi fuel "asprin" = none := by
  intro fuel
  induction fuel with
  | zero => exact ⟨rfl, rfl⟩
  | succ n ih =>
    have ha : pystrip "aspirn" = "aspirn" := by decide
    have hb : pystrip "asprin" = "asprin" := by decide
    constructor
    · simp [resolveAux, ha, ih.2, optTruthy,
        show cycleApi.rxcuiByName "aspirn" = none from rfl,
        show (cycleApi.drugInfo "aspirn").rxcuis = [] from rfl,
        show cycleApi.approximateMatch "aspirn" = [] from rfl,
        show cycleApi.spellingSuggestions "aspirn" = ["asprin"] from rfl]
    · simp [resolveAux, hb, ih.1, optTruthy,
        show cycleApi.rxcuiByName "asprin" = none from rfl,
        show (cycleApi.drugInfo "asprin").rxcuis = [] from rfl,
        show cycleApi.approximateMatch "asprin" = [] from rfl,
        show cycleApi.spellingSuggestions "asprin" = ["aspirn"] from rfl]

/-- C6: the claim says the spelling-suggestion path recurses exactly once
into the exact-lookup step only, so no second correction and no deeper
recursion can occur.  The code instead calls the full `resolve_drug_name`
recursively (rxnorm.py line 251, despite the "one level only" comment):
with a spelling oracle suggesting "asprin" for "aspirn" and vice versa
(all other strategies failing), the recursion never terminates — the
fuelled embedding returns `none` for every fuel. -/
theorem resolve_spelling_recursion_unbounded :
    ∀ fuel, resolveAux cycleApi fuel "aspirn" = none :=
  fun fuel => (resolve_cycle_aux fuel).1

/-- Round-half-to-even of an integer is that integer. -/
theorem roundHalfEven_intCast (z : ℤ) : roundHalfEven (z : ℚ) = z := by
  unfold roundHalfEven
  rw [Int.floor_intCast]
  norm_num

/-- `round(x, 2)` is the identity on rationals with denominator 100. -/
theorem round2_natCast_div (m : ℕ) : round2 ((m : ℚ) / 100) = (m : ℚ) / 100 := by
  unfold round2
  have h : (100 : ℚ) * ((m : ℚ) / 100) = ((m : ℤ) : ℚ) := by
    push_cast
    ring
  rw [h, roundHalfEven_intCast]
  push_cast
  ring

/-- C4 (amended): the confidence score is 0 whenever the answer CONTAINS
the substring "Not enough evidence" (in particular when it equals the
sentinel, but also on any other answer containing that substring);
otherwise it equals 0.30 + 0.08 per evidence item + 0.04 per bracketed
citation marker in the answer, capped at 1.0 (the code's final
round-to-2-decimals is the identity on these values). -/
theorem confidence_formula (evidence : List EvidenceItem) (answer : String) :
    confidence evidence answer =
      if containsSub "Not enough evidence".toList answer.toList then 0
      else min 1 (3 / 10 + (8 / 100) * (evidence.length : ℚ)
        + (4 / 100) * (countCite answer.toList : ℚ)) := by
  unfold confidence
  split_ifs with h
  · rfl
  · have hval : (3 / 10 : ℚ) + (8 / 100) * (evidence.length : ℚ)
        + (4 / 100) * (countCite answer.toList : ℚ)
        = ((30 + 8 * evidence.length + 4 * countCite answer.toList : ℕ) : ℚ) / 100 := by
      push_cast
      ring
    have hmin : min (1 : ℚ)
        (((30 + 8 * evidence.length + 4 * countCite answer.toList : ℕ) : ℚ) / 100)
        = ((min 100 (30 + 8 * evidence.length + 4 * countCite answer.toList) : ℕ) : ℚ)
          / 100 := by
      rcases le_total (100 : ℕ) (30 + 8 * evidence.length + 4 * countCite answer.toList)
        with hle | hle
      · have hc : (100 : ℚ) ≤
            ((30 + 8 * evidence.length + 4 * countCite answer.toList : ℕ) : ℚ) := by
          exact_mod_cast hle
        rw [min_eq_left (by linarith), min_eq_left hle]
        norm_num
      · have hc : ((30 + 8 * evidence.length + 4 * countCite answer.toList : ℕ) : ℚ)
            ≤ 100 := by
          exact_mod_cast hle
        rw [min_eq_right (by linarith), min_eq_right hle]
    rw [hval, hmin, round2_natCast_div]

/-- The counterexample answer for C4: it contains the substring
"Not enough evidence" but is not the sentinel, and carries one bracketed
citation marker. -/
def ce4Answer : String :=
  "Not enough evidence of interactions, but nausea is reported [doc1::adverse_reactions]."

/-- The counterexample evidence pack for C4: one item. -/
def ce4Evidence : List EvidenceItem :=
  [{ cite := "[doc1::adverse_reactions]", content := "nausea is reported often",
     doc_id := "doc1", field := "adverse_reactions" }]

/-- C4 counterexample: the claim says any answer different from the
sentinel scores base 0.30 + 0.08 per evidence item + 0.04 per citation
marker.  This answer differs from the sentinel, has one evidence item and
one citation marker (claimed score 0.42), yet the code returns 0.0 because
it tests for the substring "Not enough evidence", not for equality with
the sentinel. -/
theorem confidence_substring_counterexample :
    ce4Answer ≠ sentinel ∧
      confidence ce4Evidence ce4Answer = 0 ∧
      min 1 (3 / 10 + (8 / 100) * (ce4Evidence.length : ℚ)
        + (4 / 100) * (countCite ce4Answer.toList : ℚ)) = 42 / 100 ∧
      (0 : ℚ) ≠ 42 / 100 := by
  refine ⟨by decide, ?_, ?_, by norm_num⟩
  · have h : containsSub "Not enough evidence".toList ce4Answer.toList = true := by decide
    unfold confidence
    rw [if_pos h]
  · have h1 : ce4Evidence.length = 1 := rfl
    have h2 : countCite ce4Answer.toList = 1 := by decide
    rw [h1, h2]
    norm_num

/-- The integer comparison embedded in `disparityLow` is exactly the
rational comparison `count < median * 0.3` the Python code performs. -/
theorem int_lt_three_tenths_iff (c m : ℤ) :
    10 * c < 3 * m ↔ (c : ℚ) < (m : ℚ) * (3 / 10) := by
  constructor
  · intro h
    have hc : ((10 * c : ℤ) : ℚ) < ((3 * m : ℤ) : ℚ) := by exact_mod_cast h
    push_cast at hc
    linarith
  · intro h
    have hc : ((10 * c : ℤ) : ℚ) < ((3 * m : ℤ) : ℚ) := by push_cast; linarith
    exact_mod_cast hc

/-- Membership in the over-warned list: a confirmed risk whose count is
strictly below 3/10 of the upper median of the confirmed counts. -/
theorem disparityLow_mem (confirmed : List DisparityEntry) (e : DisparityEntry) :
    e ∈ disparityLow confirmed ↔
      e ∈ confirmed ∧
        (e.faers_count : ℚ) <
          (upperMedian (confirmed.map (fun x => x.faers_count)) : ℚ) * (3 / 10) := by
  unfold disparityLow
  by_cases hc : confirmed = []
  · subst hc
    simp
  · rw [if_neg hc, List.mem_filter]
    apply and_congr_right
    intro _
    rw [decide_eq_true_eq]
    have hm : upperMedian (confirmed.map (fun x => x.faers_count))
        = (List.insertionSort (· ≤ ·)
            (confirmed.map (fun x => x.faers_count))).getD (confirmed.length / 2) 0 := by
      unfold upperMedian
      rw [List.length_map]
    rw [hm]
    exact int_lt_three_tenths_iff _ _

/-- C8 (amended): for non-empty label text and reaction list, the
"potentially over-warned" list contains exactly those confirmed risks
whose report count is strictly below 30% of the UPPER MEDIAN of the
confirmed counts — the element at index ⌊n/2⌋ of the ascending-sorted
count list, which for an even number of confirmed risks is the upper of
the two middle counts, not the standard median — and it is empty when
there are no confirmed risks. -/
theorem disparity_overwarned_characterization (label : String)
    (reactions : List Reaction) (h1 : label ≠ "") (h2 : reactions ≠ []) :
    ((compute_disparity label reactions).reactions_on_label_with_high_faers = [] →
      (compute_disparity label reactions).reactions_on_label_with_low_faers = []) ∧
    ∀ e, e ∈ (compute_disparity label reactions).reactions_on_label_with_low_faers ↔
      e ∈ (compute_disparity label reactions).reactions_on_label_with_high_faers ∧
        (e.faers_count : ℚ) <
          (upperMedian ((compute_disparity label
            reactions).reactions_on_label_with_high_faers.map
              (fun x => x.faers_count)) : ℚ) * (3 / 10) := by
  have hng : ¬ (label = "" ∨ reactions = []) := by
    push_neg
    exact ⟨h1, h2⟩
  have hhigh : (compute_disparity label reactions).reactions_on_label_with_high_faers
      = disparityConfirmed (normalize_term label) (totalFaersOf reactions) reactions := by
    unfold compute_disparity
    rw [if_neg hng]
  have hlow : (compute_disparity label reactions).reactions_on_label_with_low_faers
      = disparityLow (disparityConfirmed (normalize_term label)
          (totalFaersOf reactions) reactions) := by
    unfold compute_disparity
    rw [if_neg hng]
  constructor
  · intro hC
    rw [hhigh] at hC
    rw [hlow, hC]
    simp [disparityLow]
  · intro e
    rw [hlow, hhigh]
    exact disparityLow_mem _ e

/-- Witness input for C8: the spec's own example label. -/
def w8Label : String := "Common reactions include nausea and headache."

/-- Witness input for C8: the spec's own example reaction list. -/
def w8Reactions : List Reaction :=
  [{ term := "Nausea", count := 80 }, { term := "Dizziness", count := 20 }]

/-- Witness for C8 (amended), at the spec's own example label and a
two-reaction list. -/
theorem disparity_overwarned_characterization_witness :
    (w8Label ≠ "") ∧ (w8Reactions ≠ []) ∧
    (((compute_disparity w8Label w8Reactions).reactions_on_label_with_high_faers = [] →
      (compute_disparity w8Label w8Reactions).reactions_on_label_with_low_faers = []) ∧
    ∀ e, e ∈ (compute_disparity w8Label w8Reactions).reactions_on_label_with_low_faers ↔
      e ∈ (compute_disparity w8Label w8Reactions).reactions_on_label_with_high_faers ∧
        (e.faers_count : ℚ) <
          (upperMedian ((compute_disparity w8Label
            w8Reactions).reactions_on_label_with_high_faers.map
              (fun x => x.faers_count)) : ℚ) * (3 / 10)) :=
  ⟨by decide, by decide,
    disparity_overwarned_characterization w8Label w8Reactions (by decide) (by decide)⟩

/-- C8 counterexample label: all four reaction words occur on the label. -/
def ce8Label : String := "aches rashes nausea fatigue"

/-- C8 counterexample reactions: four confirmed risks with counts
20, 12, 4, 3. -/
def ce8Reactions : List Reaction :=
  [{ term := "aches", count := 20 }, { term := "rashes", count := 12 },
   { term := "nausea", count := 4 }, { term := "fatigue", count := 3 }]

/-- C8 counterexample: with confirmed counts [20, 12, 4, 3] the code flags
"fatigue" (3 < 0.3 · 12, using `sorted(counts)[2] = 12`), but the claim's
threshold — 30% of the MEDIAN of the confirmed counts, which is
(4 + 12)/2 = 8 — does not flag it, since ¬(3 < 2.4): the over-warned list
is not the set the claim describes. -/
theorem disparity_median_counterexample :
    (compute_disparity ce8Label ce8Reactions).reactions_on_label_with_high_faers.map
        (fun e => (e.term, e.faers_count))
      = [("aches", 20), ("rashes", 12), ("nausea", 4), ("fatigue", 3)] ∧
    (compute_disparity ce8Label ce8Reactions).reactions_on_label_with_low_faers.map
        (fun e => (e.term, e.faers_count))
      = [("fatigue", 3)] ∧
    specMedian [20, 12, 4, 3] = 8 ∧
    ¬ ((3 : ℚ) < 8 * (3 / 10)) := by
  refine ⟨by decide, by decide, ?_, by norm_num⟩
  have hs : List.insertionSort (· ≤ ·) ([20, 12, 4, 3] : List Int) = [3, 4, 12, 20] := by
    decide
  norm_num [specMedian, hs]

/-- Helper for C9: with index, embedder and corpus all present, the dense
search returns `min k ntotal` scored items. -/
theorem dense_length (q : List ℚ) (vecs : List (List ℚ)) (corpus : List TextChunk)
    (k : Nat) (h : corpus ≠ []) :
    (dense (some q) (some vecs) corpus k).length = min k vecs.length := by
  simp only [dense, if_neg h, ipSearch]
  rw [List.length_map, List.length_take, List.length_insertionSort,
    List.length_map, List.enum_length]
  omega

/-- Helper for C9: the length of the dense branch of `run_rag_query`. -/
theorem dense_retrieve_length (q : List ℚ) (vecs : List (List ℚ))
    (corpus : List TextChunk) (k : Nat) (h : corpus ≠ []) :
    (dense_retrieve (some q) (some vecs) corpus k).length
      = min (densePool k) vecs.length := by
  unfold dense_retrieve
  rw [List.length_map]
  exact dense_length q vecs corpus (densePool k) h

/-- C9 (amended): the dense branch of `run_rag_query` searches the dense
index with an over-fetch pool of size max(20, 3 · requested_k) — not
max(requested_k, 20) — further capped by the index size, and returns the
empty list whenever the query embedding is absent, the index is absent,
or the corpus is empty. -/
theorem dense_retrieve_pool (q : List ℚ) (vecs : List (List ℚ))
    (corpus : List TextChunk) (k : Nat) (h : corpus ≠ []) :
    dense_retrieve none (some vecs) corpus k = [] ∧
    dense_retrieve (some q) none corpus k = [] ∧
    dense_retrieve (some q) (some vecs) ([] : List TextChunk) k = [] ∧
    (dense_retrieve (some q) (some vecs) corpus k).length
      = min (densePool k) vecs.length := by
  refine ⟨?_, rfl, rfl, dense_retrieve_length q vecs corpus k h⟩
  unfold dense_retrieve dense
  split_ifs <;> rfl

/-- Witness for C9 (amended) at a two-vector index, one-chunk corpus and
requested_k = 2 (pool min (densePool 2) 2 = 2). -/
theorem dense_retrieve_pool_witness :
    (([{ chunk_id := "d::f", doc_id := "d", field := "f", text := "t" }] :
        List TextChunk) ≠ []) ∧
    (dense_retrieve none (some [[1], [2]])
        [{ chunk_id := "d::f", doc_id := "d", field := "f", text := "t" }] 2 = [] ∧
      dense_retrieve (some [1]) none
        [{ chunk_id := "d::f", doc_id := "d", field := "f", text := "t" }] 2 = [] ∧
      dense_retrieve (some [1]) (some [[1], [2]]) ([] : List TextChunk) 2 = [] ∧
      (dense_retrieve (some [1]) (some [[1], [2]])
        [{ chunk_id := "d::f", doc_id := "d", field := "f", text := "t" }] 2).length
        = min (densePool 2) ([[1], [2]] : List (List ℚ)).length) :=
  ⟨by decide,
    dense_retrieve_pool [1] [[1], [2]]
      [{ chunk_id := "d::f", doc_id := "d", field := "f", text := "t" }] 2 (by decide)⟩

/-- C9 counterexample corpus (non-empty). -/
def ce9Corpus : List TextChunk :=
  [{ chunk_id := "d::f", doc_id := "d", field := "f", text := "t" }]

/-- C9 counterexample: with requested_k = 7 over a 22-vector index, the
dense search returns 21 items (pool max(20, 3·7) = 21), exceeding the
claim's pool size max(7, 20) = 20 — the pool is not max(requested_k, 20). -/
theorem dense_pool_counterexample :
    (dense_retrieve (some [1]) (some (List.replicate 22 [(1 : ℚ)])) ce9Corpus 7).length
        = 21 ∧
      ¬ (21 ≤ max 7 20) := by
  refine ⟨?_, by decide⟩
  rw [dense_retrieve_length _ _ _ _ (by decide)]
  rfl

/-! ### C3: reciprocal-rank fusion helper lemmas -/

/-- A lookup over an association list none of whose keys is `k` misses. -/
theorem lookup_eq_none_of_forall_ne (l : List (String × Nat)) (k : String)
    (h : ∀ p ∈ l, p.1 ≠ k) : l.lookup k = none := by
  induction l with
  | nil => rfl
  | cons x xs ih =>
    cases x with
    | mk a b =>
      have hx : (k == a) = false :=
        beq_eq_false_iff_ne.mpr (h (a, b) (List.mem_cons_self _ _)).symm
      simp only [List.lookup, hx]
      exact ih fun p hp => h p (List.mem_cons_of_mem _ hp)

/-- A lookup that misses the left part of an append continues right. -/
theorem lookup_append_of_none (l1 l2 : List (String × Nat)) (k : String)
    (h : l1.lookup k = none) : (l1 ++ l2).lookup k = l2.lookup k := by
  induction l1 with
  | nil => rfl
  | cons x xs ih =>
    cases x with
    | mk a b =>
      by_cases hx : (k == a) = true
      · simp only [List.lookup, hx] at h
        exact Option.noConfusion h
      · simp only [Bool.not_eq_true] at hx
        simp only [List.lookup, hx] at h
        simp only [List.cons_append, List.lookup, hx]
        exact ih h

/-- A successful lookup returns a binding of the list. -/
theorem mem_of_lookup_eq_some (l : List (String × Nat)) (k : String) (v : Nat)
    (h : l.lookup k = some v) : (k, v) ∈ l := by
  induction l with
  | nil => simp [List.lookup] at h
  | cons x xs ih =>
    cases x with
    | mk a b =>
      by_cases hx : (k == a) = true
      · have ha : k = a := eq_of_beq hx
        simp only [List.lookup, hx, Option.some.injEq] at h
        subst ha
        subst h
        exact List.mem_cons_self _ _
      · simp only [Bool.not_eq_true] at hx
        simp only [List.lookup, hx] at h
        exact List.mem_cons_of_mem _ (ih h)

/-- The keys of the rank entries are the chunk ids, in order. -/
theorem rankEntries_keys (b : Nat) (l : List (ℚ × TextChunk)) :
    (rankEntries b l).map Prod.fst = l.map (fun p => cid p.2) := by
  induction l generalizing b with
  | nil => rfl
  | cons x xs ih => simp [rankEntries, ih]

/-- Every rank recorded from base `b` is at least `b + 1`. -/
theorem rankEntries_rank_lb (l : List (ℚ × TextChunk)) :
    ∀ b key r, (key, r) ∈ rankEntries b l → b + 1 ≤ r := by
  induction l with
  | nil =>
    intro b key r h
    simp [rankEntries] at h
  | cons x xs ih =>
    intro b key r h
    rw [rankEntries] at h
    rcases List.mem_cons.mp h with h' | h'
    · have hr : r = b + 1 := congrArg Prod.snd h'
      omega
    · have := ih (b + 1) key r h'
      omega

/-- With pairwise-distinct keys, the first element of a result list gets
rank 1 in the rank dict (even after the dict-overwrite reversal). -/
theorem rankMap_head_lookup (pd : ℚ × TextChunk) (rest : List (ℚ × TextChunk))
    (hnodup : ((pd :: rest).map (fun p => cid p.2)).Nodup) :
    (rankMap (pd :: rest)).lookup (cid pd.2) = some 1 := by
  have hnm : cid pd.2 ∉ rest.map (fun p => cid p.2) := by
    rw [List.map_cons, List.nodup_cons] at hnodup
    exact hnodup.1
  unfold rankMap
  rw [show rankEntries 0 (pd :: rest) = (cid pd.2, 1) :: rankEntries 1 rest from rfl,
    List.reverse_cons, lookup_append_of_none]
  · simp [List.lookup]
  · apply lookup_eq_none_of_forall_ne
    intro p hp hk
    apply hnm
    rw [← hk]
    have hmem : p.1 ∈ (rankEntries 1 rest).map Prod.fst := by
      rw [List.mem_reverse] at hp
      exact List.mem_map_of_mem _ hp
    rwa [rankEntries_keys] at hmem

/-- Any key other than the head's gets an effective rank of at least 2:
either it is absent (penalty `pool size + 1 ≥ 2`) or it sits at a later
position. -/
theorem rankMap_rank_ge_two (pd : ℚ × TextChunk) (rest : List (ℚ × TextChunk))
    (key : String) (hne : key ≠ cid pd.2) :
    2 ≤ ((rankMap (pd :: rest)).lookup key).getD ((pd :: rest).length + 1) := by
  cases hl : (rankMap (pd :: rest)).lookup key with
  | none =>
    simp only [Option.getD_none, List.length_cons]
    omega
  | some r =>
    have hmem := mem_of_lookup_eq_some _ _ _ hl
    unfold rankMap at hmem
    rw [List.mem_reverse,
      show rankEntries 0 (pd :: rest) = (cid pd.2, 1) :: rankEntries 1 rest from rfl]
      at hmem
    rcases List.mem_cons.mp hmem with h' | h'
    · exact absurd (congrArg Prod.fst h') hne
    · have := rankEntries_rank_lb rest 1 key r h'
      simpa using this

/-- Every element kept by the setdefault-style bucket is drawn from the
input and its key was unseen when it was kept. -/
theorem mem_bucketAux (l : List TextChunk) :
    ∀ seen y, y ∈ bucketAux seen l → cid y ∉ seen ∧ y ∈ l := by
  induction l with
  | nil =>
    intro seen y hy
    simp [bucketAux] at hy
  | cons x xs ih =>
    intro seen y hy
    rw [bucketAux] at hy
    by_cases hx : cid x ∈ seen
    · rw [if_pos hx] at hy
      obtain ⟨h1, h2⟩ := ih seen y hy
      exact ⟨h1, List.mem_cons_of_mem _ h2⟩
    · rw [if_neg hx] at hy
      rcases List.mem_cons.mp hy with rfl | hy'
      · exact ⟨hx, List.mem_cons_self _ _⟩
      · obtain ⟨h1, h2⟩ := ih _ y hy'
        exact ⟨fun hc => h1 (List.mem_cons_of_mem _ hc), List.mem_cons_of_mem _ h2⟩

/-- Head of the truncated, descending-sorted list: an element strictly
dominating every other element of the list comes out first. -/
theorem head_take_insertionSort (l : List (ℚ × TextChunk)) (x : ℚ × TextChunk)
    (k : Nat) (hk : 0 < k) (hmem : x ∈ l)
    (hlt : ∀ y ∈ l, y ≠ x → y.1 < x.1) :
    ((List.insertionSort scoreGE l).take k).head? = some x := by
  have hmemL : x ∈ List.insertionSort scoreGE l :=
    (List.perm_insertionSort scoreGE l).mem_iff.mpr hmem
  cases hL : List.insertionSort scoreGE l with
  | nil =>
    rw [hL] at hmemL
    cases hmemL
  | cons hd tl =>
    have hhd_mem : hd ∈ l := (List.perm_insertionSort scoreGE l).subset
      (by rw [hL]; exact List.mem_cons_self _ _)
    by_cases hx : hd = x
    · subst hx
      obtain ⟨k', rfl⟩ : ∃ k', k = k' + 1 := ⟨k - 1, by omega⟩
      simp [List.take_succ_cons]
    · exfalso
      have h1 : hd.1 < x.1 := hlt hd hhd_mem hx
      have hx_tl : x ∈ tl := by
        rw [hL] at hmemL
        rcases List.mem_cons.mp hmemL with h' | h'
        · exact absurd h'.symm hx
        · exact h'
      have hsorted := List.sorted_insertionSort scoreGE l
      rw [hL] at hsorted
      have h2 : scoreGE hd x := List.rel_of_sorted_cons hsorted x hx_tl
      exact absurd h2 (not_le.mpr h1)

/-- C3: if the result lists have pairwise-distinct chunk ids and the same
item heads both the dense and the sparse list, reciprocal-rank fusion
with α = 1/2 places that item first in the fused output (with fused score
exactly 1), for any positive pool size. -/
theorem fuse_ranks_common_top_first
    (dense_res sparse_res : List (ℚ × TextChunk)) (k : Nat) (pd ps : ℚ × TextChunk)
    (hk : 0 < k)
    (hd : dense_res.head? = some pd) (hs : sparse_res.head? = some ps)
    (hdn : (dense_res.map (fun p => cid p.2)).Nodup)
    (hsn : (sparse_res.map (fun p => cid p.2)).Nodup)
    (htop : cid pd.2 = cid ps.2) :
    (fuse dense_res sparse_res (1 / 2) k).head? = some (1, pd.2) := by
  obtain ⟨dt, rfl⟩ : ∃ t, dense_res = pd :: t := by
    cases dense_res with
    | nil => simp at hd
    | cons a t =>
      simp only [List.head?_cons, Option.some.injEq] at hd
      exact ⟨t, by rw [hd]⟩
  obtain ⟨st, rfl⟩ : ∃ t, sparse_res = ps :: t := by
    cases sparse_res with
    | nil => simp at hs
    | cons a t =>
      simp only [List.head?_cons, Option.some.injEq] at hs
      exact ⟨t, by rw [hs]⟩
  have hdr1 : (rankMap (pd :: dt)).lookup (cid pd.2) = some 1 :=
    rankMap_head_lookup pd dt hdn
  have hsr1 : (rankMap (ps :: st)).lookup (cid pd.2) = some 1 := by
    rw [htop]
    exact rankMap_head_lookup ps st hsn
  have hscoreX : fuseScore (rankMap (pd :: dt)) (rankMap (ps :: st))
      (pd :: dt).length (ps :: st).length (1 / 2) pd.2 = 1 := by
    unfold fuseScore
    rw [hdr1, hsr1]
    norm_num
  have hbucket : bucketAux [] (((pd :: dt) ++ ps :: st).map (fun p => p.2))
      = pd.2 :: bucketAux [cid pd.2] ((dt ++ ps :: st).map (fun p => p.2)) := by
    rw [List.cons_append, List.map_cons, bucketAux, if_neg (by simp)]
  simp only [fuse]
  rw [hbucket, List.map_cons, hscoreX]
  apply head_take_insertionSort _ _ k hk (List.mem_cons_self _ _)
  intro y hy hyx
  rcases List.mem_cons.mp hy with rfl | hy'
  · exact absurd rfl hyx
  · obtain ⟨z, hz, rfl⟩ := List.mem_map.mp hy'
    obtain ⟨hznotseen, -⟩ := mem_bucketAux _ _ _ hz
    have hzne : cid z ≠ cid pd.2 := by
      intro hc
      exact hznotseen (by rw [hc]; exact List.mem_cons_self _ _)
    have hdz : 2 ≤ ((rankMap (pd :: dt)).lookup (cid z)).getD ((pd :: dt).length + 1) :=
      rankMap_rank_ge_two pd dt (cid z) hzne
    have hsz : 2 ≤ ((rankMap (ps :: st)).lookup (cid z)).getD ((ps :: st).length + 1) :=
      rankMap_rank_ge_two ps st (cid z) (by rw [← htop]; exact hzne)
    show fuseScore _ _ _ _ _ z < 1
    unfold fuseScore
    have hdq : (2 : ℚ) ≤
        (((rankMap (pd :: dt)).lookup (cid z)).getD ((pd :: dt).length + 1) : Nat) := by
      exact_mod_cast hdz
    have hsq : (2 : ℚ) ≤
        (((rankMap (ps :: st)).lookup (cid z)).getD ((ps :: st).length + 1) : Nat) := by
      exact_mod_cast hsz
    have hd0 : (0 : ℚ) <
        (((rankMap (pd :: dt)).lookup (cid z)).getD ((pd :: dt).length + 1) : Nat) := by
      linarith
    have hs0 : (0 : ℚ) <
        (((rankMap (ps :: st)).lookup (cid z)).getD ((ps :: st).length + 1) : Nat) := by
      linarith
    have h1 : (1 / 2 : ℚ) /
        (((rankMap (pd :: dt)).lookup (cid z)).getD ((pd :: dt).length + 1) : Nat)
        ≤ 1 / 4 := by
      rw [div_le_iff₀ hd0]
      linarith
    have h2 : (1 - 1 / 2 : ℚ) /
        (((rankMap (ps :: st)).lookup (cid z)).getD ((ps :: st).length + 1) : Nat)
        ≤ 1 / 4 := by
      rw [div_le_iff₀ hs0]
      linarith
    linarith

/-- Witness chunk shared between the two result lists for C3. -/
def wChunkA : TextChunk :=
  { chunk_id := "doc1::warnings", doc_id := "doc1", field := "warnings",
    text := "warning text" }

/-- Witness chunk appearing only in the dense list for C3. -/
def wChunkB : TextChunk :=
  { chunk_id := "doc1::dosage", doc_id := "doc1", field := "dosage",
    text := "dosage text" }

/-- Witness chunk appearing only in the sparse list for C3. -/
def wChunkC : TextChunk :=
  { chunk_id := "doc2::overdosage", doc_id := "doc2", field := "overdosage",
    text := "overdose text" }

/-- Witness dense result list for C3 ( `wChunkA` ranked first). -/
def wDense : List (ℚ × TextChunk) := [(9 / 10, wChunkA), (8 / 10, wChunkB)]

/-- Witness sparse result list for C3 ( `wChunkA` ranked first). -/
def wSparse : List (ℚ × TextChunk) := [(7 / 2, wChunkA), (2, wChunkC)]

/-- Witness for C3 at two concrete two-element result lists sharing their
top item. -/
theorem fuse_ranks_common_top_first_witness :
    0 < 15 ∧
    wDense.head? = some (9 / 10, wChunkA) ∧
    wSparse.head? = some (7 / 2, wChunkA) ∧
    (wDense.map (fun p => cid p.2)).Nodup ∧
    (wSparse.map (fun p => cid p.2)).Nodup ∧
    cid ((9 / 10 : ℚ), wChunkA).2 = cid ((7 / 2 : ℚ), wChunkA).2 ∧
    (fuse wDense wSparse (1 / 2) 15).head? = some (1, wChunkA) :=
  ⟨by decide, rfl, rfl, by decide, by decide, rfl,
    fuse_ranks_common_top_first wDense wSparse 15 (9 / 10, wChunkA) (7 / 2, wChunkA)
      (by decide) rfl rfl (by decide) (by decide) rfl⟩

end TruPharma
